import Mathlib

/-!
Shallow embedding of the task/stamp/workspace lifecycle manager of the
mcp-agent repository (services/workspace_manager.py, services/stamp_manager.py,
services/task_manager.py, utils/security.py, utils/process_runner.py,
handlers/task_handler.py), together with theorems settling the frozen claims
about it.

External effects (the OS clock, process spawning, pid liveness, the SHA-256
digest, random salt) are modelled as explicit oracle parameters; the
filesystem, the active-stamp collection, the history log and the task ledger
are modelled as explicit state threaded through each operation.
-/

/-! ## Decimal rendering of natural numbers (Python `str(n)` / f-string) -/

/-- The ASCII digit character for `d` (`0 ≤ d ≤ 9`). -/
def digitChar (d : Nat) : Char := Char.ofNat (48 + d)

/-- Fuel-driven decimal rendering, most significant digit first. -/
def natReprAux : Nat → Nat → List Char
  | 0, _ => []
  | fuel+1, n => if n < 10 then [digitChar n] else natReprAux fuel (n / 10) ++ [digitChar (n % 10)]

/-- Decimal digit string of `n`, as Python `str(n)` produces for an `int ≥ 0`. -/
def natRepr (n : Nat) : List Char := natReprAux (n + 1) n

def natReprString (n : Nat) : String := String.mk (natRepr n)

/-! ## Python `str.splitlines` -/

/-- The line-break characters recognised by Python `str.splitlines`. -/
def isPyLineBreak (c : Char) : Bool :=
  c = '\n' || c = '\r' || c = '\x0b' || c = '\x0c' ||
  c = '\x1c' || c = '\x1d' || c = '\x1e' || c = '\x85' ||
  c = '\u2028' || c = '\u2029'

/-- Worker for `pyLines`: `curr` is the current (reversed) unfinished line.
A `"\r\n"` pair counts as a single break; a trailing break opens no new line. -/
def slAux : List Char → List Char → List (List Char)
  | [], curr => if curr.isEmpty then [] else [curr.reverse]
  | c :: rest, curr =>
    if isPyLineBreak c then
      curr.reverse ::
        match rest with
        | d :: rest2 => if c = '\r' ∧ d = '\n' then slAux rest2 [] else slAux (d :: rest2) []
        | [] => []
    else slAux rest (c :: curr)

/-- Python `content.splitlines()`, at the character-list level. -/
def pyLines (s : String) : List (List Char) := slAux s.data []

/-- Python `"\n".join(lines)`, at the character-list level. -/
def joinNL : List (List Char) → List Char
  | [] => []
  | [l] => l
  | l :: ls => l ++ '\n' :: joinNL ls

/-! ## Character classes and regex fragments used by utils/security.py -/

def isDigitCh (c : Char) : Bool := '0' ≤ c && c ≤ '9'

/-- The class `[A-F0-9]` of the stamp-id pattern. -/
def isUpperHexCh (c : Char) : Bool := isDigitCh c || ('A' ≤ c && c ≤ 'F')

/-- The class `[a-zA-Z0-9_\-\.]` of the script-name pattern. -/
def isScriptNameChar (c : Char) : Bool :=
  ('a' ≤ c && c ≤ 'z') || ('A' ≤ c && c ≤ 'Z') || isDigitCh c ||
  c = '_' || c = '-' || c = '.'

/-- Consume the exact characters of `pat` from the front of `cs`. -/
def expectStr : List Char → List Char → Option (List Char)
  | [], cs => some cs
  | _ :: _, [] => none
  | p :: ps, c :: cs => if c = p then expectStr ps cs else none

/-- Consume exactly `n` characters satisfying `p` from the front of `cs`. -/
def takeCount (p : Char → Bool) : Nat → List Char → Option (List Char)
  | 0, cs => some cs
  | _+1, [] => none
  | n+1, c :: cs => if p c then takeCount p n cs else none

/-- Whether `cs` is exactly `SHADOW-\d{8}-\d{6}-[A-F0-9]{4}` (ASCII reading
of the digit class; Python `\d` additionally admits non-ASCII decimal digits). -/
def stampCore (cs : List Char) : Bool :=
  ((((((expectStr "SHADOW-".data cs).bind
    (takeCount isDigitCh 8)).bind
    (expectStr ['-'])).bind
    (takeCount isDigitCh 6)).bind
    (expectStr ['-'])).bind
    (takeCount isUpperHexCh 4)) == some []

/-- Python `re.match(r"^SHADOW-\d{8}-\d{6}-[A-F0-9]{4}$", s)`: the `$` anchor
also matches just before one trailing newline. Like `stampCore`, the digit
class is the ASCII reading of `\d`: on ASCII inputs this is exactly the
Python match, while ids built from non-ASCII Unicode decimal digits are
rejected here but accepted by Python. Acceptance (`= true`) is therefore
sound unconditionally; every theorem that relies on rejection (`= false`)
carries an explicit all-ASCII hypothesis on the input. -/
def pyMatchStampPattern (cs : List Char) : Bool :=
  stampCore cs || (cs.getLast? == some '\n' && stampCore cs.dropLast)

/-- Python `re.match(r"^[class]+$", s)` for a character class `p` that does not
contain the newline character: the whole string is a nonempty run of class
characters, optionally followed by one trailing newline. -/
def pyMatchClassPlus (p : Char → Bool) (cs : List Char) : Bool :=
  (!cs.isEmpty && cs.all p) ||
  (cs.getLast? == some '\n' && !cs.dropLast.isEmpty && cs.dropLast.all p)

/-- Python `s.endswith(suf)`. -/
def pyEndsWith (s suf : String) : Bool := suf.data.isSuffixOf s.data

/-- Whether `sub` occurs as a contiguous run inside `hay`. -/
def listContainsSub (sub : List Char) : List Char → Bool
  | [] => sub.isEmpty
  | c :: rest => sub.isPrefixOf (c :: rest) || listContainsSub sub rest

/-- Python `sub in s` (substring containment). -/
def pyContains (s sub : String) : Bool := listContainsSub sub.data s.data

/-- The ASCII whitespace characters removed by Python `str.strip()`. -/
def isPySpace (c : Char) : Bool :=
  c = ' ' || c = '\t' || c = '\n' || c = '\r' || c = '\x0b' || c = '\x0c'

/-- Python `s.strip()` (ASCII whitespace). -/
def pyStrip (s : String) : String :=
  String.mk (((s.data.dropWhile isPySpace).reverse.dropWhile isPySpace).reverse)

/-! ## utils/security.py -/

/-- Embeds `sanitize_stamp` from utils/security.py. -/
def sanitizeStamp (stamp : String) : Bool × String :=
  if stamp = "" then (false, "任务戳不能为空")
  else if pyMatchStampPattern stamp.data then (true, "有效")
  else (false, "任务戳格式无效: " ++ stamp)

/-- Embeds `sanitize_script_name` from utils/security.py. -/
def sanitizeScriptName (scriptName : String) : Bool × String :=
  if scriptName = "" then (false, "脚本名不能为空")
  else if !(pyEndsWith scriptName ".py" || pyEndsWith scriptName ".sh") then
    (false, "只支持 .py 和 .sh 脚本")
  else if pyContains scriptName ".." || pyContains scriptName "/" ||
      pyContains scriptName "\\" then
    (false, "脚本名包含非法字符")
  else if pyMatchClassPlus isScriptNameChar scriptName.data then (true, "有效")
  else (false, "脚本名包含非法字符")

/-! ## Filesystem model and services/workspace_manager.py -/

/-- The filesystem as seen by the Workspace Store: the set of workspace
directories that exist under the fixed root, and the files written so far
(full path, content), first binding wins. -/
structure FS where
  dirs : List String
  files : List (String × String)
deriving DecidableEq

/-- Embeds `ServerConfig.WORKSPACE_ROOT` (default value). -/
def workspaceRoot : String := "/root/pentest_workspace"

/-- Embeds `self.root / stamp`. -/
def wsPath (stamp : String) : String := workspaceRoot ++ "/" ++ stamp

/-- First binding for `path`, if any. -/
def findFile : List (String × String) → String → Option String
  | [], _ => none
  | (p, c) :: rest, path => if p = path then some c else findFile rest path

/-- Overwrite the first binding for `path`, or append a new one
(`Path.write_text` semantics). -/
def putFile (path content : String) : List (String × String) → List (String × String)
  | [] => [(path, content)]
  | (p, c) :: rest =>
    if p = path then (p, content) :: rest else (p, c) :: putFile path content rest

/-- Embeds `WorkspaceManager.create_workspace`: unconditional `mkdir(parents=True,
exist_ok=True)` keyed by the raw stamp string. -/
def createWorkspace (fs : FS) (stamp : String) : String × FS :=
  (wsPath stamp, { fs with dirs := if stamp ∈ fs.dirs then fs.dirs else fs.dirs ++ [stamp] })

/-- Embeds `WorkspaceManager.workspace_exists`. -/
def workspaceExists (fs : FS) (stamp : String) : Bool := stamp ∈ fs.dirs

/-- Embeds `WorkspaceManager.get_workspace`. -/
def getWorkspace (fs : FS) (stamp : String) : Option String :=
  if workspaceExists fs stamp then some (wsPath stamp) else none

/-- Embeds `WorkspaceManager.save_script`: ensures the workspace directory and writes
`script_content` at `workspace / script_name`, with no validation of the name. -/
def saveScript (fs : FS) (stamp scriptName scriptContent : String) : String × FS :=
  let workspace := (createWorkspace fs stamp).1
  let fs1 := (createWorkspace fs stamp).2
  let scriptPath := workspace ++ "/" ++ scriptName
  (scriptPath, { fs1 with files := putFile scriptPath scriptContent fs1.files })

/-- The truncation marker `f"\n... [截断，共 {len(lines)} 行]"` without its
leading newline. -/
def truncMarker (total : Nat) : List Char :=
  "... [截断，共 ".data ++ natRepr total ++ " 行]".data

/-- The pure content transformation inside `WorkspaceManager.read_file`:
`splitlines`, truncate to `max_lines` lines and append the marker, else
rejoin all lines. -/
def readFileContent (content : String) (maxLines : Nat) : String :=
  let lines := pyLines content
  if lines.length > maxLines then
    String.mk (joinNL (lines.take maxLines)) ++ String.mk ('\n' :: truncMarker lines.length)
  else
    String.mk (joinNL lines)

/-- Embeds `WorkspaceManager.read_file`: `None` when the workspace or file is absent,
else the (possibly truncated) content. -/
def readFile (fs : FS) (stamp filename : String) (maxLines : Nat) : Option String :=
  match getWorkspace fs stamp with
  | none => none
  | some workspace =>
    match findFile fs.files (workspace ++ "/" ++ filename) with
    | none => none
    | some content => some (readFileContent content maxLines)

/-! ## services/stamp_manager.py -/

/-- A Finding record as built by `add_finding`. -/
structure Finding where
  id : String
  timestamp : String
  ftype : String
  severity : String
  description : String
  evidence : List (String × String)
deriving DecidableEq

/-- An Event record as built by `add_event`. -/
structure StampEvent where
  timestamp : String
  etype : String
  message : String
  data : List (String × String)
deriving DecidableEq

/-- A Stamp record of the active collection (`active_stamps.json`). -/
structure StampData where
  stamp : String
  mission_name : String
  target : String
  operator : String
  tags : List String
  created_at : String
  unix_timestamp : Nat
  status : String
  task_ids : List String
  findings : List Finding
  events : List StampEvent
  updated_at : Option String
  status_notes : Option String
deriving DecidableEq

/-- One line of the append-only history log (`history.jsonl`), discriminated by
its `event` field. -/
inductive HistRec where
  | stampCreated (timestamp : String) (data : StampData)
  | taskAssociated (timestamp stamp taskId : String)
  | findingAdded (stamp : String) (f : Finding)
  | statusUpdated (timestamp stamp status : String) (notes : Option String)
  | stampArchived (timestamp : String) (data : StampData) (archivedAt : String)
deriving DecidableEq

/-- The persisted state of the Identity Store: the active collection (a JSON
object, modelled as an insertion-ordered association list with unique keys)
and the history log. -/
structure StampState where
  active : List (String × StampData)
  history : List HistRec
deriving DecidableEq

/-- Lookup in the active collection (`active_stamps[stamp]` / `in` test). -/
def findStamp : List (String × StampData) → String → Option StampData
  | [], _ => none
  | (k, v) :: rest, key => if k = key then some v else findStamp rest key

/-- Embeds `active_stamps[stamp] = data`: replace the first binding for the key, or
append a new one. -/
def putStamp (key : String) (v : StampData) : List (String × StampData) → List (String × StampData)
  | [] => [(key, v)]
  | (k, w) :: rest =>
    if k = key then (k, v) :: rest else (k, w) :: putStamp key v rest

/-- A `datetime.now()` observation: calendar fields plus the POSIX timestamp. -/
structure PyDateTime where
  year : Nat
  month : Nat
  day : Nat
  hour : Nat
  minute : Nat
  second : Nat
  unix : Nat
deriving DecidableEq

/-- Embeds `strftime` two-digit zero-padded field (`%m`, `%d`, `%H`, `%M`, `%S`). -/
def strf2 (n : Nat) : List Char := if n < 10 then ['0', digitChar n] else natRepr n

/-- Embeds `strftime("%Y%m%d")`. -/
def strfDate (dt : PyDateTime) : List Char := natRepr dt.year ++ strf2 dt.month ++ strf2 dt.day

/-- Embeds `strftime("%H%M%S")`. -/
def strfTime (dt : PyDateTime) : List Char := strf2 dt.hour ++ strf2 dt.minute ++ strf2 dt.second

/-- Embeds `datetime.isoformat()` (microseconds not modelled). -/
def pyIso (dt : PyDateTime) : String :=
  String.mk (natRepr dt.year ++ '-' :: strf2 dt.month ++ '-' :: strf2 dt.day ++
    'T' :: strf2 dt.hour ++ ':' :: strf2 dt.minute ++ ':' :: strf2 dt.second)

/-- Lower-case hex digit character, as `hashlib.sha256(...).hexdigest()` emits. -/
def hexLowerChar (x : Fin 16) : Char :=
  if x.val < 10 then digitChar x.val else Char.ofNat (97 + (x.val - 10))

/-- Python `str.upper()` on an ASCII character. -/
def pyUpperChar (c : Char) : Char :=
  if 'a' ≤ c && c ≤ 'z' then Char.ofNat (c.toNat - 32) else c

/-- Result dict of `StampManager.generate`. -/
structure GenResult where
  success : Bool
  stamp : String
  workspace : String
  message : String
deriving DecidableEq

/-- Embeds `StampManager.generate`. The SHA-256 digest of
`f"{mission_name}:{target}:{timestamp.isoformat()}:{os.urandom(4).hex()}"` is an
oracle parameter, given as its 64 hex digits; the code keeps the first four,
upper-cased. -/
def generate (dt : PyDateTime) (digest : List (Fin 16)) (missionName target operator : String)
    (tags : Option (List String)) (st : StampState) (fs : FS) :
    GenResult × StampState × FS :=
  let shortHash := String.mk (((digest.map hexLowerChar).take 4).map pyUpperChar)
  let stampId := "SHADOW-" ++ String.mk (strfDate dt) ++ "-" ++ String.mk (strfTime dt)
    ++ "-" ++ shortHash
  let data : StampData := {
    stamp := stampId
    mission_name := missionName
    target := target
    operator := operator
    tags := tags.getD []
    created_at := pyIso dt
    unix_timestamp := dt.unix
    status := "active"
    task_ids := []
    findings := []
    events := []
    updated_at := none
    status_notes := none }
  let st1 : StampState := {
    active := putStamp stampId data st.active
    history := st.history ++ [.stampCreated (pyIso dt) data] }
  let workspace := (createWorkspace fs stampId).1
  let fs1 := (createWorkspace fs stampId).2
  ({ success := true, stamp := stampId, workspace := workspace,
     message := "任务戳 " ++ stampId ++ " 已创建" }, st1, fs1)

/-- Result dict of `StampManager.get_info`. -/
structure InfoResult where
  success : Bool
  data : Option StampData
  error : Option String
deriving DecidableEq

/-- Embeds `StampManager.get_info`. -/
def getInfo (st : StampState) (stamp : String) : InfoResult :=
  match findStamp st.active stamp with
  | none => { success := false, data := none, error := some ("任务戳 " ++ stamp ++ " 不存在") }
  | some d => { success := true, data := some d, error := none }

/-- Generic result dict carrying only a success flag and a message or error. -/
structure OpResult where
  success : Bool
  message : Option String
  error : Option String
deriving DecidableEq

/-- Embeds `StampManager.associate_task`: appends `task_id` to the stamp's `task_ids`
unless already present, and always appends a `task_associated` history line. -/
def associateTask (nowIso : String) (stamp taskId : String) (st : StampState) :
    OpResult × StampState :=
  match findStamp st.active stamp with
  | none =>
    ({ success := false, message := none, error := some ("任务戳 " ++ stamp ++ " 不存在") }, st)
  | some d =>
    let active1 :=
      if taskId ∈ d.task_ids then st.active
      else putStamp stamp { d with task_ids := d.task_ids ++ [taskId] } st.active
    let st1 : StampState := {
      active := active1
      history := st.history ++ [.taskAssociated nowIso stamp taskId] }
    ({ success := true, message := some ("任务 " ++ taskId ++ " 已关联到 " ++ stamp),
       error := none }, st1)

/-- Result dict of `StampManager.add_finding`. -/
structure FindingResult where
  success : Bool
  finding_id : Option String
  error : Option String
deriving DecidableEq

/-- Embeds `StampManager.add_finding`. -/
def addFinding (nowUnix : Nat) (nowIso : String) (stamp vulnType severity description : String)
    (evidence : Option (List (String × String))) (st : StampState) :
    FindingResult × StampState :=
  match findStamp st.active stamp with
  | none =>
    ({ success := false, finding_id := none,
       error := some ("任务戳 " ++ stamp ++ " 不存在") }, st)
  | some d =>
    let f : Finding := {
      id := "F" ++ natReprString nowUnix
      timestamp := nowIso
      ftype := vulnType
      severity := severity
      description := description
      evidence := evidence.getD [] }
    let st1 : StampState := {
      active := putStamp stamp { d with findings := d.findings ++ [f] } st.active
      history := st.history ++ [.findingAdded stamp f] }
    ({ success := true, finding_id := some f.id, error := none }, st1)

/-- Embeds `StampManager.add_event` (saves the active collection only; writes no
history line). -/
def addEvent (nowIso : String) (stamp eventType message : String)
    (data : Option (List (String × String))) (st : StampState) : OpResult × StampState :=
  match findStamp st.active stamp with
  | none =>
    ({ success := false, message := none, error := some ("任务戳 " ++ stamp ++ " 不存在") }, st)
  | some d =>
    let e : StampEvent := {
      timestamp := nowIso, etype := eventType, message := message, data := data.getD [] }
    let st1 : StampState := {
      active := putStamp stamp { d with events := d.events ++ [e] } st.active
      history := st.history }
    ({ success := true, message := some "事件已记录", error := none }, st1)

/-- Embeds `StampManager.update_status`: unconditional status write, `updated_at`
refresh, optional `status_notes`, plus a `status_updated` history line. -/
def updateStatus (nowIso : String) (stamp status : String) (notes : Option String)
    (st : StampState) : OpResult × StampState :=
  match findStamp st.active stamp with
  | none =>
    ({ success := false, message := none, error := some ("任务戳 " ++ stamp ++ " 不存在") }, st)
  | some d =>
    let d1 := { d with
      status := status
      updated_at := some nowIso
      status_notes := match notes with
        | some m => if m = "" then d.status_notes else some m
        | none => d.status_notes }
    let st1 : StampState := {
      active := putStamp stamp d1 st.active
      history := st.history ++ [.statusUpdated nowIso stamp status notes] }
    ({ success := true, message := some ("任务戳 " ++ stamp ++ " 状态已更新为 " ++ status),
       error := none }, st1)

/-! ## utils/process_runner.py and services/task_manager.py -/

/-- What the OS reports for the `nohup ... & echo $!` spawn shell: either the
captured stdout/stderr of the completed shell, or a raised exception. -/
inductive SpawnOutcome where
  | completed (stdout stderr : String)
  | raised (msg : String)
deriving DecidableEq

/-- Result dict of `run_script_background`. -/
structure SpawnResult where
  success : Bool
  pid : String
  error : Option String
deriving DecidableEq

/-- Embeds `run_script_background`: refuses unknown script extensions before spawning;
otherwise spawns (recorded in the `spawned` audit list) and succeeds exactly
when the stripped stdout is a nonempty digit string (Python `str.isdigit`). -/
def runScriptBackground (outcome : SpawnOutcome) (scriptPath logFile cwd : String)
    (spawned : List String) : SpawnResult × List String :=
  if pyEndsWith scriptPath ".py" || pyEndsWith scriptPath ".sh" then
    match outcome with
    | .completed out err =>
      let pid := pyStrip out
      if pid ≠ "" && pid.data.all isDigitCh then
        ({ success := true, pid := pid, error := none }, spawned ++ [scriptPath])
      else
        ({ success := false, pid := "", error := some ("获取 PID 失败: " ++ err) },
         spawned ++ [scriptPath])
    | .raised m =>
      ({ success := false, pid := "", error := some m }, spawned ++ [scriptPath])
  else
    ({ success := false, pid := "", error := some "不支持的脚本类型" }, spawned)

/-- Task status values used in the ledger. -/
inductive TaskStatus where
  | RUNNING
  | COMPLETED
  | CANCELLED
deriving DecidableEq

/-- One Task record of the ledger (`todo.json`). `end_time` is absent until the
task leaves RUNNING. -/
structure TaskRec where
  task_id : String
  stamp : String
  pid : String
  script_name : String
  script_path : String
  status : TaskStatus
  start_time : String
  end_time : Option String
  log_file : String
deriving DecidableEq

/-- The full mutable state touched by the Lifecycle Manager: filesystem, task
ledger, Identity Store state, plus audit lists of spawned script paths and
killed pids (modelling the irreversible OS effects). -/
structure SysState where
  fs : FS
  todos : List TaskRec
  stampSt : StampState
  spawned : List String
  killed : List String
deriving DecidableEq

/-- A `datetime.now()` / `time.time()` observation inside the task manager. -/
structure Clock where
  unix : Nat
  iso : String
deriving DecidableEq

/-- Embeds `TaskManager._generate_task_id`: `f"T{int(time.time())}"`. -/
def generateTaskId (clock : Clock) : String := "T" ++ natReprString clock.unix

/-- Result dict of `TaskManager.deploy_and_run`. -/
structure DeployResult where
  success : Bool
  task_id : Option String
  pid : Option String
  log_file : Option String
  message : Option String
  error : Option String
deriving DecidableEq

/-- Embeds `TaskManager.deploy_and_run`: checks workspace existence, persists the
script, spawns it detached, appends a RUNNING Task record to the ledger and
associates the task id with the stamp. -/
def deployAndRun (outcome : SpawnOutcome) (clock : Clock)
    (stamp scriptName scriptContent : String) (st : SysState) : DeployResult × SysState :=
  if !workspaceExists st.fs stamp then
    ({ success := false, task_id := none, pid := none, log_file := none, message := none,
       error := some ("任务戳 " ++ stamp ++ " 的工作空间不存在，请先生成任务戳") }, st)
  else
    let scriptPath := (saveScript st.fs stamp scriptName scriptContent).1
    let fs1 := (saveScript st.fs stamp scriptName scriptContent).2
    let taskId := generateTaskId clock
    let logFile := wsPath stamp ++ "/" ++ taskId ++ ".log"
    let res := (runScriptBackground outcome scriptPath logFile (wsPath stamp) st.spawned).1
    let spawned1 := (runScriptBackground outcome scriptPath logFile (wsPath stamp) st.spawned).2
    if !res.success then
      ({ success := false, task_id := none, pid := none, log_file := none, message := none,
         error := some ("启动脚本失败: " ++ res.error.getD "未知错误") },
       { st with fs := fs1, spawned := spawned1 })
    else
      let rec1 : TaskRec := {
        task_id := taskId
        stamp := stamp
        pid := res.pid
        script_name := scriptName
        script_path := scriptPath
        status := .RUNNING
        start_time := clock.iso
        end_time := none
        log_file := logFile }
      let stampSt1 := (associateTask clock.iso stamp taskId st.stampSt).2
      ({ success := true, task_id := some taskId, pid := some res.pid,
         log_file := some logFile,
         message := some ("任务 " ++ taskId ++ " 已在 " ++ stamp ++ " 下启动"),
         error := none },
       { st with
         fs := fs1
         todos := st.todos ++ [rec1]
         stampSt := stampSt1
         spawned := spawned1 })

/-- A filter argument of `get_task_status`: Python treats `None` and `""` both
as "no filter" (falsy). -/
def passesFilter (f : Option String) (v : String) : Bool :=
  match f with
  | none => true
  | some s => s = "" || v = s

/-- Lazy reconciliation applied to one task during a status/result query: a
RUNNING task whose pid is no longer alive becomes COMPLETED with the
observation time as `end_time`. -/
def reconcile (alive : String → Bool) (nowIso : String) (t : TaskRec) : TaskRec :=
  if t.status = .RUNNING && !alive t.pid then
    { t with status := .COMPLETED, end_time := some nowIso }
  else t

/-- Embeds `TaskManager.get_task_status`: reconciles every RUNNING task that passes
the filters, persists the updates, and returns the filtered tasks. -/
def getTaskStatus (alive : String → Bool) (nowIso : String)
    (stampF taskIdF : Option String) (st : SysState) : List TaskRec × SysState :=
  let todos1 := st.todos.map fun t =>
    if passesFilter stampF t.stamp && passesFilter taskIdF t.task_id then
      reconcile alive nowIso t
    else t
  let filtered := todos1.filter fun t =>
    passesFilter stampF t.stamp && passesFilter taskIdF t.task_id
  (filtered, { st with todos := todos1 })

/-- Reconcile the first record matching `(task_id, stamp)` in place, returning
it (post-reconciliation) alongside the updated ledger. -/
def resultAux (alive : String → Bool) (nowIso stamp taskId : String) :
    List TaskRec → Option TaskRec × List TaskRec
  | [] => (none, [])
  | t :: ts =>
    if t.task_id = taskId && t.stamp = stamp then
      (some (reconcile alive nowIso t), reconcile alive nowIso t :: ts)
    else
      ((resultAux alive nowIso stamp taskId ts).1,
       t :: (resultAux alive nowIso stamp taskId ts).2)

/-- Result dict of `TaskManager.get_task_result`. -/
structure TaskResult where
  success : Bool
  task_id : Option String
  status : Option TaskStatus
  log : Option String
  start_time : Option String
  end_time : Option String
  error : Option String
deriving DecidableEq

/-- Embeds `TaskManager.get_task_result`: reconciles the single task, then reads its
log through the Workspace Store truncated to `tail_lines`. -/
def getTaskResult (alive : String → Bool) (nowIso : String) (stamp taskId : String)
    (tailLines : Nat) (st : SysState) : TaskResult × SysState :=
  match resultAux alive nowIso stamp taskId st.todos with
  | (none, _) =>
    ({ success := false, task_id := none, status := none, log := none, start_time := none,
       end_time := none, error := some ("任务 " ++ taskId ++ " 不存在") }, st)
  | (some t, todos1) =>
    let logContent := readFile st.fs stamp (taskId ++ ".log") tailLines
    ({ success := true, task_id := some taskId, status := some t.status,
       log := some (logContent.getD "(日志为空或不存在)"),
       start_time := some t.start_time, end_time := t.end_time, error := none },
     { st with todos := todos1 })

/-- The string stored in the `status` field of a persisted Task record. -/
def taskStatusStr : TaskStatus → String
  | .RUNNING => "RUNNING"
  | .COMPLETED => "COMPLETED"
  | .CANCELLED => "CANCELLED"

/-- Outcome of scanning the ledger in `cancel_task`. -/
inductive CancelOutcome where
  | notFound
  | invalidState (status : TaskStatus)
  | cancelled (pid : String)
deriving DecidableEq

/-- Scan for the first record matching `(task_id, stamp)`: fail fast if it is
not RUNNING, else mark it CANCELLED with an end timestamp. -/
def cancelAux (nowIso stamp taskId : String) : List TaskRec → CancelOutcome × List TaskRec
  | [] => (.notFound, [])
  | t :: ts =>
    if t.task_id = taskId && t.stamp = stamp then
      if t.status ≠ .RUNNING then (.invalidState t.status, t :: ts)
      else (.cancelled t.pid, { t with status := .CANCELLED, end_time := some nowIso } :: ts)
    else
      ((cancelAux nowIso stamp taskId ts).1, t :: (cancelAux nowIso stamp taskId ts).2)

/-- Embeds `TaskManager.cancel_task`: `kill -9` (recorded in the `killed` audit list)
plus the CANCELLED transition, only for a currently RUNNING task. -/
def cancelTask (nowIso : String) (stamp taskId : String) (st : SysState) :
    OpResult × SysState :=
  match cancelAux nowIso stamp taskId st.todos with
  | (.notFound, todos1) =>
    ({ success := false, message := none, error := some ("任务 " ++ taskId ++ " 不存在") },
     { st with todos := todos1 })
  | (.invalidState s, todos1) =>
    ({ success := false, message := none,
       error := some ("任务 " ++ taskId ++ " 状态为 " ++ taskStatusStr s ++ "，无法取消") },
     { st with todos := todos1 })
  | (.cancelled pid, todos1) =>
    ({ success := true, message := some ("任务 " ++ taskId ++ " 已取消"), error := none },
     { st with todos := todos1, killed := st.killed ++ [pid] })

/-! ## handlers/task_handler.py -/

/-- Embeds `handle_deploy_and_run`: validates the stamp id, the script name and the
non-emptiness of the content before invoking the Lifecycle Manager. -/
def handleDeployAndRun (outcome : SpawnOutcome) (clock : Clock)
    (stamp scriptName scriptContent : String) (st : SysState) : DeployResult × SysState :=
  let ok1 := (sanitizeStamp stamp).1
  let reason1 := (sanitizeStamp stamp).2
  if !ok1 then
    ({ success := false, task_id := none, pid := none, log_file := none, message := none,
       error := some reason1 }, st)
  else
    let ok2 := (sanitizeScriptName scriptName).1
    let reason2 := (sanitizeScriptName scriptName).2
    if !ok2 then
      ({ success := false, task_id := none, pid := none, log_file := none, message := none,
         error := some reason2 }, st)
    else if scriptContent = "" || pyStrip scriptContent = "" then
      ({ success := false, task_id := none, pid := none, log_file := none, message := none,
         error := some "脚本内容不能为空" }, st)
    else
      deployAndRun outcome clock stamp scriptName scriptContent st

/-! ## Lemmas about the active-collection association list -/

theorem findStamp_putStamp_self (k : String) (v : StampData) :
    ∀ l : List (String × StampData), findStamp (putStamp k v l) k = some v := by
  intro l
  induction l with
  | nil => simp [putStamp, findStamp]
  | cons hd tl ih =>
    obtain ⟨k1, v1⟩ := hd
    by_cases h : k1 = k
    · subst h
      simp [putStamp, findStamp]
    · simp [putStamp, findStamp, h, ih]

theorem findStamp_putStamp_ne (k k' : String) (v : StampData) (hne : k' ≠ k) :
    ∀ l : List (String × StampData), findStamp (putStamp k v l) k' = findStamp l k' := by
  intro l
  induction l with
  | nil => simp [putStamp, findStamp, Ne.symm hne]
  | cons hd tl ih =>
    obtain ⟨k1, v1⟩ := hd
    by_cases h : k1 = k
    · subst h
      simp [putStamp, findStamp, Ne.symm hne]
    · simp [putStamp, findStamp, h, ih]

/-- Claim C10: every single-stamp mutator of the Identity Store
(`associate_task`, `add_finding`, `add_event`, `update_status`) leaves the
active-collection record of every other stamp id unchanged. -/
theorem stamp_mutators_frame (nowUnix : Nat) (nowIso : String)
    (s other taskId vulnType severity description eventType message status : String)
    (evidence eventData : Option (List (String × String))) (notes : Option String)
    (st : StampState) (hne : other ≠ s) :
    findStamp (associateTask nowIso s taskId st).2.active other = findStamp st.active other ∧
    findStamp (addFinding nowUnix nowIso s vulnType severity description evidence st).2.active
      other = findStamp st.active other ∧
    findStamp (addEvent nowIso s eventType message eventData st).2.active other
      = findStamp st.active other ∧
    findStamp (updateStatus nowIso s status notes st).2.active other
      = findStamp st.active other := by
  refine ⟨?_, ?_, ?_, ?_⟩
  · unfold associateTask
    cases h : findStamp st.active s with
    | none => simp
    | some d =>
      simp only
      split
      · rfl
      · exact findStamp_putStamp_ne s other _ hne st.active
  · unfold addFinding
    cases h : findStamp st.active s with
    | none => simp
    | some d => exact findStamp_putStamp_ne s other _ hne st.active
  · unfold addEvent
    cases h : findStamp st.active s with
    | none => simp
    | some d => exact findStamp_putStamp_ne s other _ hne st.active
  · unfold updateStatus
    cases h : findStamp st.active s with
    | none => simp
    | some d => exact findStamp_putStamp_ne s other _ hne st.active

/-- Witness for `stamp_mutators_frame` at a concrete state. -/
theorem stamp_mutators_frame_witness :
    "SHADOW-20250101-120000-0000" ≠ "SHADOW-20250101-120000-ABCD" ∧
    findStamp (associateTask "t0" "SHADOW-20250101-120000-ABCD" "T1"
        { active := [], history := [] }).2.active "SHADOW-20250101-120000-0000"
      = findStamp ([] : List (String × StampData)) "SHADOW-20250101-120000-0000" := by
  refine ⟨by decide, ?_⟩
  exact (stamp_mutators_frame 0 "t0" "SHADOW-20250101-120000-ABCD"
    "SHADOW-20250101-120000-0000" "T1" "t" "high" "d" "e" "m" "active" none none none
    { active := [], history := [] } (by decide)).1


/-- A concrete active Stamp record used by witnesses. -/
def dataS1 : StampData where
  stamp := "S1"
  mission_name := "m"
  target := "t"
  operator := "o"
  tags := []
  created_at := "c"
  unix_timestamp := 0
  status := "active"
  task_ids := []
  findings := []
  events := []
  updated_at := none
  status_notes := none

/-- A concrete Identity Store state containing only `dataS1`. -/
def stS1 : StampState where
  active := [("S1", dataS1)]
  history := []

/-- Claim C8: `associate_task` is idempotent on `task_ids` (a second identical
call still succeeds, changes nothing in the active collection, and still
appends a history event), and fails on an absent stamp without touching the
state. -/
theorem associate_task_idempotent (nowIso1 nowIso2 s taskId : String) (st : StampState) :
    (∀ d, findStamp st.active s = some d → d.task_ids.count taskId ≤ 1 →
      (associateTask nowIso1 s taskId st).1.success = true ∧
      (associateTask nowIso2 s taskId (associateTask nowIso1 s taskId st).2).1.success = true ∧
      (∃ d2,
        findStamp (associateTask nowIso2 s taskId
          (associateTask nowIso1 s taskId st).2).2.active s = some d2 ∧
        d2.task_ids.count taskId = 1) ∧
      (associateTask nowIso2 s taskId (associateTask nowIso1 s taskId st).2).2.active
        = (associateTask nowIso1 s taskId st).2.active ∧
      (associateTask nowIso2 s taskId (associateTask nowIso1 s taskId st).2).2.history
        = st.history ++ [.taskAssociated nowIso1 s taskId, .taskAssociated nowIso2 s taskId]) ∧
    (findStamp st.active s = none →
      (associateTask nowIso1 s taskId st).1.success = false ∧
      (associateTask nowIso1 s taskId st).2 = st) := by
  constructor
  · intro d hd hcount
    by_cases hmem : taskId ∈ d.task_ids
    · have h1 : d.task_ids.count taskId = 1 := by
        have : 0 < d.task_ids.count taskId := List.count_pos_iff.mpr hmem
        omega
      have e1 : associateTask nowIso1 s taskId st =
          ({ success := true, message := some ("任务 " ++ taskId ++ " 已关联到 " ++ s),
             error := none },
           { active := st.active,
             history := st.history ++ [.taskAssociated nowIso1 s taskId] }) := by
        simp [associateTask, hd, hmem]
      have e2 : associateTask nowIso2 s taskId
          ({ active := st.active,
             history := st.history ++ [.taskAssociated nowIso1 s taskId] } : StampState) =
          ({ success := true, message := some ("任务 " ++ taskId ++ " 已关联到 " ++ s),
             error := none },
           { active := st.active,
             history := (st.history ++ [.taskAssociated nowIso1 s taskId])
               ++ [.taskAssociated nowIso2 s taskId] }) := by
        simp [associateTask, hd, hmem]
      rw [e1]
      rw [e2]
      exact ⟨rfl, rfl, ⟨d, hd, h1⟩, rfl, by simp⟩
    · have h0 : d.task_ids.count taskId = 0 := List.count_eq_zero.mpr hmem
      have hd2 : findStamp
          (putStamp s { d with task_ids := d.task_ids ++ [taskId] } st.active) s
          = some { d with task_ids := d.task_ids ++ [taskId] } :=
        findStamp_putStamp_self s _ st.active
      have hmem2 : taskId ∈ d.task_ids ++ [taskId] := by simp
      have e1 : associateTask nowIso1 s taskId st =
          ({ success := true, message := some ("任务 " ++ taskId ++ " 已关联到 " ++ s),
             error := none },
           { active := putStamp s { d with task_ids := d.task_ids ++ [taskId] } st.active,
             history := st.history ++ [.taskAssociated nowIso1 s taskId] }) := by
        simp [associateTask, hd, hmem]
      have e2 : associateTask nowIso2 s taskId
          ({ active := putStamp s { d with task_ids := d.task_ids ++ [taskId] } st.active,
             history := st.history ++ [.taskAssociated nowIso1 s taskId] } : StampState) =
          ({ success := true, message := some ("任务 " ++ taskId ++ " 已关联到 " ++ s),
             error := none },
           { active := putStamp s { d with task_ids := d.task_ids ++ [taskId] } st.active,
             history := (st.history ++ [.taskAssociated nowIso1 s taskId])
               ++ [.taskAssociated nowIso2 s taskId] }) := by
        simp [associateTask, hd2, hmem2]
      rw [e1]
      rw [e2]
      refine ⟨rfl, rfl, ⟨{ d with task_ids := d.task_ids ++ [taskId] }, hd2, ?_⟩, rfl, by simp⟩
      simp [List.count_append, h0]
  · intro h
    simp [associateTask, h]

/-- Witness for `associate_task_idempotent` at the concrete state `stS1`. -/
theorem associate_task_idempotent_witness :
    findStamp stS1.active "S1" = some dataS1 ∧
    (∃ d2,
      findStamp (associateTask "i2" "S1" "T1"
        (associateTask "i1" "S1" "T1" stS1).2).2.active "S1" = some d2 ∧
      d2.task_ids.count "T1" = 1) := by
  refine ⟨by decide, ?_⟩
  exact (((associate_task_idempotent "i1" "i2" "S1" "T1" stS1).1
    dataS1 (by decide) (by decide)).2.2).1

/-! ## Claims about the Lifecycle Manager -/

/-- Claim C3: `deploy_and_run` on a stamp with no existing workspace fails with
the not-found error, appends no ledger record, writes no file and spawns no
process (the whole state is unchanged). -/
theorem deploy_missing_workspace (outcome : SpawnOutcome) (clock : Clock)
    (stamp scriptName scriptContent : String) (st : SysState)
    (h : workspaceExists st.fs stamp = false) :
    (deployAndRun outcome clock stamp scriptName scriptContent st).1.success = false ∧
    (deployAndRun outcome clock stamp scriptName scriptContent st).1.error
      = some ("任务戳 " ++ stamp ++ " 的工作空间不存在，请先生成任务戳") ∧
    (deployAndRun outcome clock stamp scriptName scriptContent st).2 = st := by
  simp [deployAndRun, h]

/-- Witness for `deploy_missing_workspace` on the empty state. -/
theorem deploy_missing_workspace_witness :
    workspaceExists (FS.mk [] []) "SHADOW-20250101-120000-ABCD" = false ∧
    (deployAndRun (.completed "101" "") (Clock.mk 0 "i") "SHADOW-20250101-120000-ABCD"
      "a.sh" "echo" (SysState.mk (FS.mk [] []) [] (StampState.mk [] []) [] [])).1.success
      = false := by
  refine ⟨by decide, ?_⟩
  exact (deploy_missing_workspace (.completed "101" "") (Clock.mk 0 "i")
    "SHADOW-20250101-120000-ABCD" "a.sh" "echo"
    (SysState.mk (FS.mk [] []) [] (StampState.mk [] []) [] []) (by decide)).1

/-- A concrete stamp id with an existing workspace, for the task-id collision
scenario. -/
def stampX : String := "SHADOW-20250101-120000-ABCD"

/-- Concrete system state whose only content is the workspace of `stampX`. -/
def sysX : SysState where
  fs := { dirs := [stampX], files := [] }
  todos := []
  stampSt := { active := [], history := [] }
  spawned := []
  killed := []

/-- A fixed observation instant (both deploys fall in the same Unix second). -/
def clockX : Clock where
  unix := 1700000000
  iso := "2023-11-14T22:13:20"

/-- Claim C4 (code bug demonstration): two successful `deploy_and_run` calls
within the same Unix second both derive `task_id` from `int(time.time())` and
therefore append two ledger records with the SAME `task_id`, violating the
specified system-wide uniqueness invariant. -/
theorem task_id_collision_same_second :
    (deployAndRun (.completed "101" "") clockX stampX "a.sh" "echo hi" sysX).1.success
      = true ∧
    (deployAndRun (.completed "102" "") clockX stampX "b.sh" "echo hi"
      (deployAndRun (.completed "101" "") clockX stampX "a.sh" "echo hi" sysX).2).1.success
      = true ∧
    (deployAndRun (.completed "102" "") clockX stampX "b.sh" "echo hi"
      (deployAndRun (.completed "101" "") clockX stampX "a.sh" "echo hi" sysX).2).2.todos.map
        TaskRec.task_id = ["T1700000000", "T1700000000"] := by
  decide

/-- Reconciliation never touches a task that is not RUNNING. -/
theorem reconcile_of_not_running (alive : String → Bool) (nowIso : String) (t : TaskRec)
    (h : t.status ≠ .RUNNING) : reconcile alive nowIso t = t := by
  simp [reconcile, h]

theorem resultAux_preserves_not_running (alive : String → Bool) (nowIso s taskId : String) :
    ∀ (l : List TaskRec) (i : Nat) (t : TaskRec), l[i]? = some t → t.status ≠ .RUNNING →
      ((resultAux alive nowIso s taskId l).2)[i]? = some t := by
  intro l
  induction l with
  | nil => intro i t h _; simp at h
  | cons u us ih =>
    intro i t h hterm
    by_cases hu : (u.task_id = taskId && u.stamp = s) = true
    · simp only [resultAux, hu, if_pos]
      cases i with
      | zero =>
        simp only [List.getElem?_cons_zero, Option.some.injEq] at h
        subst h
        simp [reconcile_of_not_running alive nowIso u hterm]
      | succ j => simpa using h
    · simp only [resultAux, hu, if_neg, Bool.not_eq_true]
      cases i with
      | zero => simpa using h
      | succ j =>
        simp only [List.getElem?_cons_succ] at h ⊢
        exact ih j t h hterm

theorem cancelAux_preserves_not_running (nowIso s taskId : String) :
    ∀ (l : List TaskRec) (i : Nat) (t : TaskRec), l[i]? = some t → t.status ≠ .RUNNING →
      ((cancelAux nowIso s taskId l).2)[i]? = some t := by
  intro l
  induction l with
  | nil => intro i t h _; simp at h
  | cons u us ih =>
    intro i t h hterm
    by_cases hu : u.task_id = taskId ∧ u.stamp = s
    · by_cases hr : u.status = TaskStatus.RUNNING
      · have hne : u ≠ t := fun he => hterm (he ▸ hr)
        cases i with
        | zero =>
          simp only [List.getElem?_cons_zero, Option.some.injEq] at h
          exact absurd h hne
        | succ j =>
          simp only [List.getElem?_cons_succ] at h
          simp [cancelAux, hu, hr, h]
      · cases i with
        | zero =>
          simp only [List.getElem?_cons_zero, Option.some.injEq] at h
          subst h
          simp [cancelAux, hu, hr]
        | succ j =>
          simp only [List.getElem?_cons_succ] at h
          simp [cancelAux, hu, hr, h]
    · cases i with
      | zero =>
        simp only [List.getElem?_cons_zero, Option.some.injEq] at h
        subst h
        simp [cancelAux, hu]
      | succ j =>
        simp only [List.getElem?_cons_succ] at h
        simp [cancelAux, hu]
        simpa using ih j t h hterm

/-- The ledger written back by `cancel_task` is always the scan result. -/
theorem cancelTask_todos (nowIso s taskId : String) (st : SysState) :
    (cancelTask nowIso s taskId st).2.todos = (cancelAux nowIso s taskId st.todos).2 := by
  unfold cancelTask
  cases h : cancelAux nowIso s taskId st.todos with
  | mk o todos1 =>
    cases o <;> simp

/-- Embeds `deploy_and_run` either leaves the ledger alone (on failure) or appends a
single new record to its end. -/
theorem deployAndRun_todos (outcome : SpawnOutcome) (clock : Clock)
    (stamp scriptName scriptContent : String) (st : SysState) :
    (deployAndRun outcome clock stamp scriptName scriptContent st).2.todos = st.todos ∨
    ∃ r, (deployAndRun outcome clock stamp scriptName scriptContent st).2.todos
      = st.todos ++ [r] := by
  unfold deployAndRun
  by_cases hws : workspaceExists st.fs stamp
  · by_cases hs : (runScriptBackground outcome
        (saveScript st.fs stamp scriptName scriptContent).1
        (wsPath stamp ++ "/" ++ generateTaskId clock ++ ".log") (wsPath stamp) st.spawned).1.success
    · right
      refine ⟨{ task_id := generateTaskId clock, stamp := stamp, pid := (runScriptBackground outcome (saveScript st.fs stamp scriptName scriptContent).1 (wsPath stamp ++ "/" ++ generateTaskId clock ++ ".log") (wsPath stamp) st.spawned).1.pid, script_name := scriptName, script_path := (saveScript st.fs stamp scriptName scriptContent).1, status := TaskStatus.RUNNING, start_time := clock.iso, end_time := none, log_file := wsPath stamp ++ "/" ++ generateTaskId clock ++ ".log" }, ?_⟩
      simp [hws, hs]
    · left
      simp only [Bool.not_eq_true] at hs
      simp [hws, hs]
  · simp only [Bool.not_eq_true] at hws
    simp [hws]

/-- Claim C5: a task observed in a terminal state (COMPLETED or CANCELLED) is
never modified again by `get_task_status`, `get_task_result`, `cancel_task` or
`deploy_and_run`: the record at its ledger position survives each operation
unchanged. -/
theorem terminal_states_never_left (alive : String → Bool) (nowIso : String)
    (stampF taskIdF : Option String) (s2 taskId2 : String) (tailLines : Nat)
    (outcome : SpawnOutcome) (clock : Clock) (s3 scriptName scriptContent : String)
    (st : SysState) (i : Nat) (t : TaskRec)
    (hget : st.todos[i]? = some t)
    (hterm : t.status = .COMPLETED ∨ t.status = .CANCELLED) :
    (getTaskStatus alive nowIso stampF taskIdF st).2.todos[i]? = some t ∧
    (getTaskResult alive nowIso s2 taskId2 tailLines st).2.todos[i]? = some t ∧
    (cancelTask nowIso s2 taskId2 st).2.todos[i]? = some t ∧
    (deployAndRun outcome clock s3 scriptName scriptContent st).2.todos[i]? = some t := by
  have hnr : t.status ≠ TaskStatus.RUNNING := by
    rcases hterm with h | h <;> simp [h]
  refine ⟨?_, ?_, ?_, ?_⟩
  · unfold getTaskStatus
    simp only [List.getElem?_map, hget, Option.map_some]
    simp [reconcile_of_not_running alive nowIso t hnr]
  · unfold getTaskResult
    cases hres : resultAux alive nowIso s2 taskId2 st.todos with
    | mk r todos1 =>
      have h2 := resultAux_preserves_not_running alive nowIso s2 taskId2 st.todos i t hget hnr
      rw [hres] at h2
      cases r with
      | none => simpa using hget
      | some u => simpa using h2
  · have h2 := cancelAux_preserves_not_running nowIso s2 taskId2 st.todos i t hget hnr
    rw [cancelTask_todos]
    exact h2
  · rcases deployAndRun_todos outcome clock s3 scriptName scriptContent st with h | ⟨r, h⟩
    · rw [h]; exact hget
    · rw [h]
      have hi : i < st.todos.length := by
        have := List.getElem?_eq_some_iff.mp hget
        exact this.1
      rw [List.getElem?_append, if_pos hi]
      exact hget

/-- A concrete ledger record already COMPLETED, for witnesses. -/
def doneTask : TaskRec where
  task_id := "T100"
  stamp := stampX
  pid := "55"
  script_name := "a.sh"
  script_path := "/root/pentest_workspace/SHADOW-20250101-120000-ABCD/a.sh"
  status := .COMPLETED
  start_time := "s"
  end_time := some "e"
  log_file := "/root/pentest_workspace/SHADOW-20250101-120000-ABCD/T100.log"

/-- Concrete system state holding only `doneTask`. -/
def sysDone : SysState where
  fs := { dirs := [stampX], files := [] }
  todos := [doneTask]
  stampSt := { active := [], history := [] }
  spawned := []
  killed := []

/-- Witness for `terminal_states_never_left` at the concrete state `sysDone`. -/
theorem terminal_states_never_left_witness :
    sysDone.todos[0]? = some doneTask ∧
    (doneTask.status = .COMPLETED ∨ doneTask.status = .CANCELLED) ∧
    (cancelTask "now" stampX "T100" sysDone).2.todos[0]? = some doneTask := by
  refine ⟨by decide, Or.inl (by decide), ?_⟩
  exact (terminal_states_never_left (fun _ => true) "now" none none stampX "T100" 50
    (.completed "101" "") (Clock.mk 0 "i") stampX "a.sh" "echo" sysDone 0 doneTask
    (by decide) (Or.inl (by decide))).2.2.1

/-- Scanning behaviour of `cancel_task` at the first matching record. -/
theorem cancelAux_split (nowIso s taskId : String) (t : TaskRec) (post : List TaskRec)
    (hmatch : t.task_id = taskId ∧ t.stamp = s) :
    ∀ pre : List TaskRec, (∀ u ∈ pre, ¬(u.task_id = taskId ∧ u.stamp = s)) →
      cancelAux nowIso s taskId (pre ++ t :: post) =
        (if t.status = TaskStatus.RUNNING then
          (.cancelled t.pid,
           pre ++ { t with status := .CANCELLED, end_time := some nowIso } :: post)
        else (.invalidState t.status, pre ++ t :: post)) := by
  intro pre
  induction pre with
  | nil =>
    intro _
    by_cases hr : t.status = TaskStatus.RUNNING <;> simp [cancelAux, hmatch, hr]
  | cons u us ih =>
    intro hpre
    have hu : ¬(u.task_id = taskId ∧ u.stamp = s) := hpre u (by simp)
    have ih2 := ih fun v hv => hpre v (by simp [hv])
    by_cases hr : t.status = TaskStatus.RUNNING <;> simp [cancelAux, hu, ih2, hr]

/-- Claim C6: on the first ledger record matching `(task_id, stamp)`,
`cancel_task` fails with the invalid-state error and changes nothing when the
record is not RUNNING; when it is RUNNING, it kills the recorded pid and
rewrites the record to CANCELLED with an end timestamp. -/
theorem cancel_task_semantics (nowIso s taskId : String) (pre post : List TaskRec)
    (t : TaskRec) (st : SysState)
    (hsplit : st.todos = pre ++ t :: post)
    (hpre : ∀ u ∈ pre, ¬(u.task_id = taskId ∧ u.stamp = s))
    (hmatch : t.task_id = taskId ∧ t.stamp = s) :
    (t.status ≠ .RUNNING →
      (cancelTask nowIso s taskId st).1.success = false ∧
      (cancelTask nowIso s taskId st).1.error
        = some ("任务 " ++ taskId ++ " 状态为 " ++ taskStatusStr t.status ++ "，无法取消") ∧
      (cancelTask nowIso s taskId st).2 = st) ∧
    (t.status = .RUNNING →
      (cancelTask nowIso s taskId st).1.success = true ∧
      (cancelTask nowIso s taskId st).2.todos
        = pre ++ { t with status := .CANCELLED, end_time := some nowIso } :: post ∧
      (cancelTask nowIso s taskId st).2.killed = st.killed ++ [t.pid]) := by
  have h := cancelAux_split nowIso s taskId t post hmatch pre hpre
  constructor
  · intro hnr
    rw [if_neg hnr] at h
    unfold cancelTask
    rw [hsplit, h]
    refine ⟨rfl, rfl, ?_⟩
    rw [← hsplit]
  · intro hr
    rw [if_pos hr] at h
    unfold cancelTask
    rw [hsplit, h]
    exact ⟨rfl, rfl, rfl⟩

/-- A concrete RUNNING ledger record, for witnesses. -/
def runTask : TaskRec where
  task_id := "T200"
  stamp := stampX
  pid := "77"
  script_name := "b.sh"
  script_path := "/root/pentest_workspace/SHADOW-20250101-120000-ABCD/b.sh"
  status := .RUNNING
  start_time := "s"
  end_time := none
  log_file := "/root/pentest_workspace/SHADOW-20250101-120000-ABCD/T200.log"

/-- Concrete system state holding `doneTask` then `runTask`. -/
def sysMix : SysState where
  fs := { dirs := [stampX], files := [] }
  todos := [doneTask, runTask]
  stampSt := { active := [], history := [] }
  spawned := []
  killed := []

/-- Witness for `cancel_task_semantics`: cancelling the COMPLETED `doneTask`
fails and leaves the state unchanged; cancelling the RUNNING `runTask` kills
pid 77 and rewrites it to CANCELLED. -/
theorem cancel_task_semantics_witness :
    ((cancelTask "now" stampX "T100" sysDone).1.success = false ∧
     (cancelTask "now" stampX "T100" sysDone).2 = sysDone) ∧
    ((cancelTask "now" stampX "T200" sysMix).1.success = true ∧
     (cancelTask "now" stampX "T200" sysMix).2.killed = sysMix.killed ++ ["77"]) := by
  constructor
  · have h := cancel_task_semantics "now" stampX "T100" [] [] doneTask sysDone
      (by decide) (by simp) (by decide)
    have h2 := h.1 (by decide)
    exact ⟨h2.1, h2.2.2⟩
  · have h := cancel_task_semantics "now" stampX "T200" [doneTask] [] runTask sysMix
      (by decide) (by decide) (by decide)
    have h2 := h.2 (by decide)
    exact ⟨h2.1, h2.2.2⟩

/-! ## Script-name and stamp-id validation -/

/-- The claim's notion of a rejected script name: contains a path separator,
contains `..`, contains a character outside `[A-Za-z0-9_.-]`, or does not end
in an accepted script extension. -/
def badScriptName (s : String) : Prop :=
  pyContains s "/" = true ∨ pyContains s "\\" = true ∨ pyContains s ".." = true ∨
  (∃ c ∈ s.data, isScriptNameChar c = false) ∨
  ¬(pyEndsWith s ".py" = true ∨ pyEndsWith s ".sh" = true)

theorem pyEndsWith_append (s suf : String) (h : pyEndsWith s suf = true) :
    ∃ pre, s.data = pre ++ suf.data := by
  unfold pyEndsWith at h
  have h2 : suf.data <:+ s.data := by
    rwa [List.isSuffixOf_iff_suffix] at h
  obtain ⟨pre, hpre⟩ := h2
  exact ⟨pre, hpre.symm⟩

/-- Every script name the claim deems invalid is rejected by
`sanitize_script_name`. -/
theorem badScriptName_rejected (s : String) (hbad : badScriptName s) :
    (sanitizeScriptName s).1 = false := by
  unfold sanitizeScriptName
  by_cases h0 : s = ""
  · simp [h0]
  · by_cases hext : (pyEndsWith s ".py" || pyEndsWith s ".sh") = true
    · by_cases htrav :
        (pyContains s ".." || pyContains s "/" || pyContains s "\\") = true
      · simp [h0, hext, htrav]
      · simp only [Bool.or_eq_true, not_or, Bool.not_eq_true] at htrav
        obtain ⟨⟨hdd, hsl⟩, hbs⟩ := htrav
        have hclass : ∃ c ∈ s.data, isScriptNameChar c = false := by
          rcases hbad with h | h | h | h | h
          · rw [h] at hsl; exact absurd hsl (by simp)
          · rw [h] at hbs; exact absurd hbs (by simp)
          · rw [h] at hdd; exact absurd hdd (by simp)
          · exact h
          · exact absurd (by simpa using hext :
              pyEndsWith s ".py" = true ∨ pyEndsWith s ".sh" = true) h
        obtain ⟨c, hc, hcbad⟩ := hclass
        have hall : s.data.all isScriptNameChar = false := by
          rw [List.all_eq_false]
          exact ⟨c, hc, by simp [hcbad]⟩
        have hlast : s.data.getLast? ≠ some '\n' := by
          rcases (by simpa using hext :
              pyEndsWith s ".py" = true ∨ pyEndsWith s ".sh" = true) with hpy | hsh
          · obtain ⟨pre, hpre⟩ := pyEndsWith_append s ".py" hpy
            have hy : (pre ++ ".py".data).getLast? = some 'y' := by
              rw [List.getLast?_append]; rfl
            rw [hpre, hy]; decide
          · obtain ⟨pre, hpre⟩ := pyEndsWith_append s ".sh" hsh
            have hy : (pre ++ ".sh".data).getLast? = some 'h' := by
              rw [List.getLast?_append]; rfl
            rw [hpre, hy]; decide
        have hmatch : pyMatchClassPlus isScriptNameChar s.data = false := by
          unfold pyMatchClassPlus
          simp [hall, hlast]
        simp [h0, hext, hdd, hsl, hbs, hmatch]
    · simp [h0, hext]

/-- Claim C1 counterexample: `save_script` itself performs no validation —
called directly with the traversal name `"../evil.sh"` it does not fail and it
does write a file (outside the workspace). -/
theorem save_script_no_validation_counterexample :
    badScriptName "../evil.sh" ∧
    (saveScript (FS.mk ["SHADOW-20250101-120000-ABCD"] [])
        "SHADOW-20250101-120000-ABCD" "../evil.sh" "x").2.files
      = [("/root/pentest_workspace/SHADOW-20250101-120000-ABCD/../evil.sh", "x")] := by
  constructor
  · right; right; left; decide
  · decide

/-- Claim C1 (amended): script-name validation lives in the deploy request
handler, not in `save_script`: for every stamp id and every invalid script
name, `handle_deploy_and_run` fails before any state change — no file is
written, no ledger record appended, no process spawned. -/
theorem script_name_validated_in_handler (outcome : SpawnOutcome) (clock : Clock)
    (stamp scriptName scriptContent : String) (st : SysState)
    (hbad : badScriptName scriptName) :
    (handleDeployAndRun outcome clock stamp scriptName scriptContent st).1.success = false ∧
    (handleDeployAndRun outcome clock stamp scriptName scriptContent st).2 = st := by
  unfold handleDeployAndRun
  by_cases h1 : (sanitizeStamp stamp).1 = true
  · have h2 : (sanitizeScriptName scriptName).1 = false :=
      badScriptName_rejected scriptName hbad
    simp [h1, h2]
  · simp only [Bool.not_eq_true] at h1
    simp [h1]

/-- Witness for `script_name_validated_in_handler` on a concrete bad name. -/
theorem script_name_validated_in_handler_witness :
    badScriptName "../evil.sh" ∧
    (handleDeployAndRun (.completed "101" "") (Clock.mk 0 "i") stampX "../evil.sh" "echo"
      sysX).1.success = false := by
  have hbad : badScriptName "../evil.sh" := by right; right; left; decide
  exact ⟨hbad, (script_name_validated_in_handler (.completed "101" "") (Clock.mk 0 "i")
    stampX "../evil.sh" "echo" sysX hbad).1⟩

/-- Claim C2 counterexample: `create_workspace` performs no well-formedness
check — the malformed stamp id `"x"` is not rejected and a directory is
created for it. -/
theorem create_workspace_no_validation_counterexample :
    (sanitizeStamp "x").1 = false ∧
    (createWorkspace (FS.mk [] []) "x").2.dirs = ["x"] := by
  decide

/-- Claim C2 (amended): `create_workspace` is idempotent directory creation
for EVERY stamp string and itself rejects nothing; an all-ASCII stamp id that
does not match the `SHADOW-\d{8}-\d{6}-[A-F0-9]{4}` pattern (and carries no
trailing newline, which Python's `$` anchor tolerates) is rejected by the
request handler before any workspace operation runs. The ASCII hypothesis
marks the scope on which the embedded digit class coincides with Python's
`\d` (which additionally accepts non-ASCII Unicode decimal digits, so such
ids pass the real validator). -/
theorem create_workspace_idempotent_handler_validates (fs : FS) (stamp : String)
    (outcome : SpawnOutcome) (clock : Clock) (s2 scriptName scriptContent : String)
    (st : SysState) (hascii : ∀ c ∈ s2.data, c.toNat < 128)
    (hcore : stampCore s2.data = false)
    (hnl : s2.data.getLast? ≠ some '\n') :
    (createWorkspace (createWorkspace fs stamp).2 stamp).1 = (createWorkspace fs stamp).1 ∧
    (createWorkspace (createWorkspace fs stamp).2 stamp).2 = (createWorkspace fs stamp).2 ∧
    (handleDeployAndRun outcome clock s2 scriptName scriptContent st).1.success = false ∧
    (handleDeployAndRun outcome clock s2 scriptName scriptContent st).2 = st := by
  have hsan : (sanitizeStamp s2).1 = false := by
    unfold sanitizeStamp
    by_cases h0 : s2 = ""
    · simp [h0]
    · have hpat : pyMatchStampPattern s2.data = false := by
        unfold pyMatchStampPattern
        simp [hcore, hnl]
      simp [h0, hpat]
  refine ⟨rfl, ?_, ?_⟩
  · by_cases h : stamp ∈ fs.dirs <;> simp [createWorkspace, h]
  · unfold handleDeployAndRun
    simp [hsan]

/-! ## The generated stamp id matches the SHADOW pattern (Claim C7) -/

theorem expectStr_append : ∀ (pat rest : List Char), expectStr pat (pat ++ rest) = some rest := by
  intro pat
  induction pat with
  | nil => intro rest; rfl
  | cons p ps ih => intro rest; simp [expectStr, ih]

theorem takeCount_append (p : Char → Bool) :
    ∀ (l rest : List Char), l.all p = true → takeCount p l.length (l ++ rest) = some rest := by
  intro l
  induction l with
  | nil => intro rest _; rfl
  | cons c cs ih =>
    intro rest hall
    simp only [List.all_cons, Bool.and_eq_true] at hall
    simp [takeCount, hall.1, ih rest hall.2]

theorem digitChar_isDigit {d : Nat} (h : d < 10) : isDigitCh (digitChar d) = true := by
  interval_cases d <;> decide

theorem natReprAux_digits :
    ∀ (fuel n : Nat), ∀ c ∈ natReprAux fuel n, ∃ d, d < 10 ∧ c = digitChar d := by
  intro fuel
  induction fuel with
  | zero => intro n c hc; simp [natReprAux] at hc
  | succ fuel ih =>
    intro n c hc
    by_cases h : n < 10
    · simp only [natReprAux, if_pos h, List.mem_singleton] at hc
      exact ⟨n, h, hc⟩
    · simp only [natReprAux, if_neg h, List.mem_append, List.mem_singleton] at hc
      rcases hc with hc | hc
      · exact ih (n / 10) c hc
      · exact ⟨n % 10, Nat.mod_lt n (by omega), hc⟩

theorem natRepr_all_digits (n : Nat) : (natRepr n).all isDigitCh = true := by
  rw [List.all_eq_true]
  intro c hc
  obtain ⟨d, hd, hcd⟩ := natReprAux_digits (n + 1) n c hc
  rw [hcd]
  exact digitChar_isDigit hd

theorem natReprAux_length :
    ∀ (fuel n k : Nat), n < fuel → 10 ^ k ≤ n → n < 10 ^ (k + 1) →
      (natReprAux fuel n).length = k + 1 := by
  intro fuel
  induction fuel with
  | zero => intro n k h _ _; omega
  | succ fuel ih =>
    intro n k hfuel hlo hhi
    by_cases h : n < 10
    · have hk : k = 0 := by
        by_contra hk0
        have h1 : (1 : Nat) ≤ k := by omega
        have h2 : (10 : Nat) ^ 1 ≤ 10 ^ k := Nat.pow_le_pow_right (by omega) h1
        simp at h2
        omega
      subst hk
      simp [natReprAux, h]
    · obtain ⟨k', rfl⟩ : ∃ k', k = k' + 1 := by
        rcases Nat.eq_zero_or_pos k with hk | hk
        · subst hk; simp at hhi; omega
        · exact ⟨k - 1, by omega⟩
      have hdivlt : n / 10 < fuel := by
        have h1 : n / 10 < n := Nat.div_lt_self (by omega) (by omega)
        omega
      have hdivlo : 10 ^ k' ≤ n / 10 := by
        rw [Nat.le_div_iff_mul_le (by omega : (0:Nat) < 10)]
        calc 10 ^ k' * 10 = 10 ^ (k' + 1) := by rw [Nat.pow_succ]
        _ ≤ n := hlo
      have hdivhi : n / 10 < 10 ^ (k' + 1) := by
        rw [Nat.div_lt_iff_lt_mul (by omega : (0:Nat) < 10)]
        calc n < 10 ^ (k' + 1 + 1) := hhi
        _ = 10 ^ (k' + 1) * 10 := by rw [Nat.pow_succ]
      simp only [natReprAux, if_neg h, List.length_append, List.length_singleton]
      rw [ih (n / 10) k' hdivlt hdivlo hdivhi]

theorem natRepr_length_4 {y : Nat} (h1 : 1000 ≤ y) (h2 : y ≤ 9999) :
    (natRepr y).length = 4 := by
  have := natReprAux_length (y + 1) y 3 (by omega) (by norm_num; omega) (by norm_num; omega)
  simpa using this

theorem strf2_all_digits (n : Nat) : (strf2 n).all isDigitCh = true := by
  unfold strf2
  by_cases h : n < 10
  · simp only [if_pos h, List.all_cons, List.all_nil]
    have h0 : isDigitCh '0' = true := by decide
    have hd : isDigitCh (digitChar n) = true := digitChar_isDigit h
    simp [h0, hd]
  · simp only [if_neg h]
    exact natRepr_all_digits n

theorem strf2_length {n : Nat} (h : n ≤ 99) : (strf2 n).length = 2 := by
  unfold strf2
  by_cases h10 : n < 10
  · simp [h10]
  · simp only [if_neg h10]
    have := natReprAux_length (n + 1) n 1 (by omega) (by norm_num; omega) (by norm_num; omega)
    simpa [natRepr] using this

theorem hexUpper_is_upper_hex :
    ∀ x : Fin 16, isUpperHexCh (pyUpperChar (hexLowerChar x)) = true := by
  decide

/-- The date part `%Y%m%d` of a plausible clock reading is eight digits. -/
theorem strfDate_spec (dt : PyDateTime) (hy1 : 1000 ≤ dt.year) (hy2 : dt.year ≤ 9999)
    (hm : dt.month ≤ 99) (hd : dt.day ≤ 99) :
    (strfDate dt).length = 8 ∧ (strfDate dt).all isDigitCh = true := by
  unfold strfDate
  constructor
  · simp [natRepr_length_4 hy1 hy2, strf2_length hm, strf2_length hd]
  · simp [List.all_append, natRepr_all_digits, strf2_all_digits]

/-- The time part `%H%M%S` of a plausible clock reading is six digits. -/
theorem strfTime_spec (dt : PyDateTime) (hh : dt.hour ≤ 99) (hmi : dt.minute ≤ 99)
    (hs : dt.second ≤ 99) :
    (strfTime dt).length = 6 ∧ (strfTime dt).all isDigitCh = true := by
  unfold strfTime
  constructor
  · simp [strf2_length hh, strf2_length hmi, strf2_length hs]
  · simp [List.all_append, strf2_all_digits]

/-- A character list decomposing as `SHADOW-` + 8 digits + `-` + 6 digits +
`-` + 4 upper-hex characters passes `stampCore`. -/
theorem stampCore_of_parts (d8 d6 h4 : List Char)
    (h8l : d8.length = 8) (h8d : d8.all isDigitCh = true)
    (h6l : d6.length = 6) (h6d : d6.all isDigitCh = true)
    (h4l : h4.length = 4) (h4h : h4.all isUpperHexCh = true) :
    stampCore ("SHADOW-".data ++ (d8 ++ ('-' :: (d6 ++ ('-' :: h4))))) = true := by
  have h8 : takeCount isDigitCh 8 (d8 ++ ('-' :: (d6 ++ ('-' :: h4))))
      = some ('-' :: (d6 ++ ('-' :: h4))) := by
    rw [← h8l]; exact takeCount_append isDigitCh d8 _ h8d
  have hd1 : expectStr ['-'] ('-' :: (d6 ++ ('-' :: h4))) = some (d6 ++ ('-' :: h4)) :=
    expectStr_append ['-'] (d6 ++ ('-' :: h4))
  have h6 : takeCount isDigitCh 6 (d6 ++ ('-' :: h4)) = some ('-' :: h4) := by
    rw [← h6l]; exact takeCount_append isDigitCh d6 _ h6d
  have hd2 : expectStr ['-'] ('-' :: h4) = some h4 := expectStr_append ['-'] h4
  have hh : takeCount isUpperHexCh 4 h4 = some [] := by
    have := takeCount_append isUpperHexCh h4 [] h4h
    rwa [List.append_nil, h4l] at this
  unfold stampCore
  rw [expectStr_append]
  simp only [Option.some_bind]
  rw [h8]
  simp only [Option.some_bind]
  rw [hd1]
  simp only [Option.some_bind]
  rw [h6]
  simp only [Option.some_bind]
  rw [hd2]
  simp only [Option.some_bind]
  rw [hh]
  rfl

/-- The four short-hash characters are upper-case hex. -/
theorem shortHash_upper_hex (digest : List (Fin 16)) :
    (((digest.map hexLowerChar).take 4).map pyUpperChar).all isUpperHexCh = true := by
  rw [List.all_eq_true]
  intro c hc
  simp only [List.mem_map] at hc
  obtain ⟨c0, hc0, rfl⟩ := hc
  have hc1 := List.mem_of_mem_take hc0
  simp only [List.mem_map] at hc1
  obtain ⟨x, _, rfl⟩ := hc1
  exact hexUpper_is_upper_hex x

/-- Claim C7: for non-empty mission name and target (and any plausible clock
reading and digest), `generate` succeeds, the returned id matches
`SHADOW-\d{8}-\d{6}-[A-F0-9]{4}`, and `get_info` on the new state returns a
Stamp whose `mission_name`, `target`, `operator` and `tags` equal the supplied
values. -/
theorem generate_get_info_roundtrip (dt : PyDateTime) (digest : List (Fin 16))
    (missionName target operator : String) (tags : Option (List String))
    (st : StampState) (fs : FS)
    (hm : missionName ≠ "") (ht : target ≠ "")
    (hy1 : 1000 ≤ dt.year) (hy2 : dt.year ≤ 9999)
    (hmo : dt.month ≤ 12) (hd : dt.day ≤ 31) (hh : dt.hour ≤ 23)
    (hmi : dt.minute ≤ 59) (hsec : dt.second ≤ 59)
    (hdig : digest.length = 64) :
    (generate dt digest missionName target operator tags st fs).1.success = true ∧
    stampCore (generate dt digest missionName target operator tags st fs).1.stamp.data
      = true ∧
    ∃ d, (getInfo (generate dt digest missionName target operator tags st fs).2.1
        (generate dt digest missionName target operator tags st fs).1.stamp).data = some d ∧
      d.mission_name = missionName ∧ d.target = target ∧ d.operator = operator ∧
      d.tags = tags.getD [] := by
  have hdate := strfDate_spec dt hy1 hy2 (by omega) (by omega)
  have htime := strfTime_spec dt (by omega) (by omega) (by omega)
  have h4l : (((digest.map hexLowerChar).take 4).map pyUpperChar).length = 4 := by
    simp [hdig]
  have hcore : stampCore
      ("SHADOW-".data ++ (strfDate dt ++ ('-' :: (strfTime dt ++
        ('-' :: ((digest.map hexLowerChar).take 4).map pyUpperChar))))) = true :=
    stampCore_of_parts _ _ _ hdate.1 hdate.2 htime.1 htime.2 h4l
      (shortHash_upper_hex digest)
  refine ⟨rfl, ?_, ?_⟩
  · have hdata : (generate dt digest missionName target operator tags st fs).1.stamp.data
        = "SHADOW-".data ++ (strfDate dt ++ ('-' :: (strfTime dt ++
          ('-' :: ((digest.map hexLowerChar).take 4).map pyUpperChar)))) := by
      simp [generate]
    rw [hdata]
    exact hcore
  · refine ⟨StampData.mk
      ("SHADOW-" ++ String.mk (strfDate dt) ++ "-" ++ String.mk (strfTime dt) ++ "-" ++
        String.mk (((digest.map hexLowerChar).take 4).map pyUpperChar))
      missionName target operator (tags.getD []) (pyIso dt) dt.unix "active"
      [] [] [] none none, ?_, rfl, rfl, rfl, rfl⟩
    unfold getInfo generate
    simp only
    rw [findStamp_putStamp_self]

/-- Witness for `generate_get_info_roundtrip` at a concrete clock and digest. -/
theorem generate_get_info_roundtrip_witness :
    ("m" : String) ≠ "" ∧
    stampCore (generate (PyDateTime.mk 2025 10 12 3 4 5 1760000000)
      (List.replicate 64 (0 : Fin 16)) "m" "t" "o" none (StampState.mk [] [])
      (FS.mk [] [])).1.stamp.data = true := by
  refine ⟨by decide, ?_⟩
  exact (generate_get_info_roundtrip (PyDateTime.mk 2025 10 12 3 4 5 1760000000)
    (List.replicate 64 0) "m" "t" "o" none (StampState.mk [] []) (FS.mk [] [])
    (by decide) (by decide) (by decide) (by decide) (by decide) (by decide)
    (by decide) (by decide) (by decide) (by decide)).2.1

/-- Witness for `create_workspace_idempotent_handler_validates` at concrete
inputs. -/
theorem create_workspace_idempotent_handler_validates_witness :
    (∀ c ∈ "x".data, c.toNat < 128) ∧
    stampCore "x".data = false ∧ "x".data.getLast? ≠ some '\n' ∧
    (createWorkspace (createWorkspace (FS.mk [] []) stampX).2 stampX).2
      = (createWorkspace (FS.mk [] []) stampX).2 ∧
    (handleDeployAndRun (.completed "101" "") (Clock.mk 0 "i") "x" "a.sh" "echo"
      sysX).1.success = false := by
  have h := create_workspace_idempotent_handler_validates (FS.mk [] []) stampX
    (.completed "101" "") (Clock.mk 0 "i") "x" "a.sh" "echo" sysX (by decide) (by decide)
    (by decide)
  exact ⟨by decide, by decide, by decide, h.2.1, h.2.2.1⟩

/-! ## Structure of `splitlines` output (Claim C9) -/

/-- A character that does not break a line. -/
def notBreak (c : Char) : Bool := !isPyLineBreak c

theorem slAux_newline (rest curr : List Char) :
    slAux ('\n' :: rest) curr = curr.reverse :: slAux rest [] := by
  cases rest with
  | nil => simp [slAux, (by decide : isPyLineBreak '\n' = true)]
  | cons d r2 =>
    simp [slAux, (by decide : isPyLineBreak '\n' = true), (by decide : ¬('\n' = '\x0d'))]

theorem slAux_char (c : Char) (rest curr : List Char) (h : isPyLineBreak c = false) :
    slAux (c :: rest) curr = slAux rest (c :: curr) := by
  cases rest with
  | nil => simp [slAux, h]
  | cons d r2 => simp [slAux, h]

theorem slAux_line (l : List Char) :
    l.all notBreak = true → ∀ (curr rest : List Char),
      slAux (l ++ '\n' :: rest) curr = (curr.reverse ++ l) :: slAux rest [] := by
  induction l with
  | nil =>
    intro _ curr rest
    rw [List.nil_append, slAux_newline]
    simp
  | cons c cs ih =>
    intro hl curr rest
    simp only [List.all_cons, Bool.and_eq_true, notBreak, Bool.not_eq_true'] at hl
    rw [List.cons_append, slAux_char c _ curr hl.1]
    rw [ih hl.2 (c :: curr) rest]
    simp

theorem slAux_last (l : List Char) :
    l.all notBreak = true → ∀ curr : List Char,
      slAux l curr = if (curr.reverse ++ l).isEmpty then [] else [curr.reverse ++ l] := by
  induction l with
  | nil => intro _ curr; simp [slAux]
  | cons c cs ih =>
    intro hl curr
    simp only [List.all_cons, Bool.and_eq_true, notBreak, Bool.not_eq_true'] at hl
    rw [slAux_char c _ curr hl.1]
    rw [ih hl.2 (c :: curr)]
    simp

theorem slAux_breakfree :
    ∀ (n : Nat) (cs curr : List Char), cs.length ≤ n → curr.all notBreak = true →
      ∀ l ∈ slAux cs curr, l.all notBreak = true := by
  intro n
  induction n with
  | zero =>
    intro cs curr hlen hcurr l hl
    have hnil : cs = [] := List.eq_nil_of_length_eq_zero (by omega)
    subst hnil
    simp only [slAux] at hl
    by_cases hc : curr.isEmpty
    · simp [hc] at hl
    · simp only [hc, if_neg, Bool.false_eq_true, if_false, List.mem_singleton] at hl
      subst hl
      simpa using hcurr
  | succ n ih =>
    intro cs curr hlen hcurr l hl
    cases cs with
    | nil =>
      simp only [slAux] at hl
      by_cases hc : curr.isEmpty
      · simp [hc] at hl
      · simp only [hc, if_neg, Bool.false_eq_true, if_false, List.mem_singleton] at hl
        subst hl
        simpa using hcurr
    | cons c rest =>
      simp only [List.length_cons] at hlen
      by_cases hbr : isPyLineBreak c = true
      · cases rest with
        | nil =>
          have he : slAux [c] curr = [curr.reverse] := by simp [slAux, hbr]
          rw [he] at hl
          simp only [List.mem_singleton] at hl
          subst hl
          simpa using hcurr
        | cons d r2 =>
          by_cases hcr : c = '\x0d' ∧ d = '\n'
          · have he : slAux (c :: d :: r2) curr = curr.reverse :: slAux r2 [] := by
              obtain ⟨hc1, hd1⟩ := hcr
              subst hc1
              subst hd1
              simp [slAux, (by decide : isPyLineBreak '\x0d' = true)]
            rw [he] at hl
            rcases List.mem_cons.mp hl with hl | hl
            · subst hl
              simpa using hcurr
            · refine ih r2 [] ?_ rfl l hl
              simp only [List.length_cons] at hlen
              omega
          · have he : slAux (c :: d :: r2) curr = curr.reverse :: slAux (d :: r2) [] := by
              simp [slAux, hbr, hcr]
            rw [he] at hl
            rcases List.mem_cons.mp hl with hl | hl
            · subst hl
              simpa using hcurr
            · exact ih (d :: r2) [] (by simpa using hlen) rfl l hl
      · simp only [Bool.not_eq_true] at hbr
        rw [slAux_char c rest curr hbr] at hl
        refine ih rest (c :: curr) (by omega) ?_ l hl
        simp only [List.all_cons, Bool.and_eq_true]
        exact ⟨by simp [notBreak, hbr], hcurr⟩

/-- Every line produced by `splitlines` is free of line-break characters. -/
theorem pyLines_breakfree (s : String) : ∀ l ∈ pyLines s, l.all notBreak = true :=
  slAux_breakfree s.data.length s.data [] le_rfl rfl

/-- Splitting the truncated join: the marker appears as one final extra line. -/
theorem joinNL_split (m : List Char) (hm1 : m ≠ []) (hm2 : m.all notBreak = true) :
    ∀ ls : List (List Char), ls ≠ [] → (∀ l ∈ ls, l.all notBreak = true) →
      slAux (joinNL ls ++ '\n' :: m) [] = ls ++ [m] := by
  intro ls
  induction ls with
  | nil => intro h _; exact absurd rfl h
  | cons l ls' ih =>
    intro _ hall
    cases ls' with
    | nil =>
      rw [show joinNL [l] = l from rfl]
      rw [slAux_line l (hall l (by simp)) [] m]
      rw [slAux_last m hm2 []]
      simp [hm1]
    | cons l2 ls'' =>
      rw [show joinNL (l :: l2 :: ls'') = l ++ '\n' :: joinNL (l2 :: ls'') from rfl]
      rw [show (l ++ '\n' :: joinNL (l2 :: ls'')) ++ '\n' :: m
          = l ++ '\n' :: (joinNL (l2 :: ls'') ++ '\n' :: m) from by simp]
      rw [slAux_line l (hall l (by simp)) []]
      rw [ih (by simp) fun x hx => hall x (by simp [hx])]
      simp

/-- Splitting the untruncated join: all lines come back, except that one
trailing empty line is absorbed (a trailing `"\n"` opens no new line). -/
theorem joinNL_roundtrip :
    ∀ ls : List (List Char), (∀ l ∈ ls, l.all notBreak = true) →
      slAux (joinNL ls) [] = if ls.getLast? = some [] then ls.dropLast else ls := by
  intro ls
  induction ls with
  | nil => intro _; simp [joinNL, slAux]
  | cons l ls' ih =>
    intro hall
    cases ls' with
    | nil =>
      rw [show joinNL [l] = l from rfl, slAux_last l (hall l (by simp)) []]
      by_cases hl : l = []
      · subst hl; simp
      · simp [hl]
    | cons l2 ls'' =>
      rw [show joinNL (l :: l2 :: ls'') = l ++ '\n' :: joinNL (l2 :: ls'') from rfl]
      rw [slAux_line l (hall l (by simp)) []]
      rw [ih fun x hx => hall x (by simp [hx])]
      by_cases hlast : (l2 :: ls'').getLast? = some ([] : List Char)
      · simp [hlast, List.getLast?_cons_cons]
      · simp [hlast, List.getLast?_cons_cons]

theorem digitChar_notBreak {d : Nat} (h : d < 10) : notBreak (digitChar d) = true := by
  interval_cases d <;> decide

theorem truncMarker_breakfree (n : Nat) : (truncMarker n).all notBreak = true := by
  unfold truncMarker
  rw [List.all_append, List.all_append]
  simp only [Bool.and_eq_true]
  refine ⟨⟨by decide, ?_⟩, by decide⟩
  rw [List.all_eq_true]
  intro c hc
  obtain ⟨d, hd, rfl⟩ := natReprAux_digits (n + 1) n c hc
  exact digitChar_notBreak hd

theorem truncMarker_ne_nil (n : Nat) : truncMarker n ≠ [] := by
  unfold truncMarker
  intro h
  have hlen := congrArg List.length h
  rw [List.length_append, List.length_append, List.length_nil] at hlen
  have h0 : 0 < "... [截断，共 ".data.length := by decide
  omega

/-- Claim C9: `read_file` content handling. With more than `max_lines` lines,
the result is exactly the first `max_lines` lines followed by one marker line
naming the true total; with at most `max_lines` lines the content is returned
joined in full with no marker (one trailing empty line being absorbed by the
join). The filesystem wrapper returns exactly this transformation for an
existing file. -/
theorem read_file_truncation (content : String) (maxLines : Nat) (hpos : 0 < maxLines)
    (fs : FS) (stamp filename : String) :
    (maxLines < (pyLines content).length →
      pyLines (readFileContent content maxLines)
        = (pyLines content).take maxLines ++ [truncMarker (pyLines content).length]) ∧
    ((pyLines content).length ≤ maxLines →
      pyLines (readFileContent content maxLines)
        = if (pyLines content).getLast? = some [] then (pyLines content).dropLast
          else pyLines content) ∧
    (workspaceExists fs stamp = true →
      findFile fs.files (wsPath stamp ++ "/" ++ filename) = some content →
      readFile fs stamp filename maxLines = some (readFileContent content maxLines)) := by
  refine ⟨?_, ?_, ?_⟩
  · intro hgt
    have heq : readFileContent content maxLines
        = String.mk (joinNL ((pyLines content).take maxLines) ++ '\n' ::
            truncMarker (pyLines content).length) := by
      simp only [readFileContent]
      rw [if_pos hgt]
      rfl
    rw [heq]
    show slAux (joinNL ((pyLines content).take maxLines) ++ '\n' ::
      truncMarker (pyLines content).length) [] = _
    refine joinNL_split (truncMarker (pyLines content).length)
      (truncMarker_ne_nil _) (truncMarker_breakfree _)
      ((pyLines content).take maxLines) ?_
      (fun l hl => pyLines_breakfree content l (List.mem_of_mem_take hl))
    intro htake
    rcases List.take_eq_nil_iff.mp htake with h | h <;>
      first
      | omega
      | (rw [h] at hgt; simp at hgt)
  · intro hle
    have heq : readFileContent content maxLines = String.mk (joinNL (pyLines content)) := by
      simp only [readFileContent]
      rw [if_neg (by omega)]
    rw [heq]
    show slAux (joinNL (pyLines content)) [] = _
    exact joinNL_roundtrip (pyLines content) (pyLines_breakfree content)
  · intro hws hfind
    simp [readFile, getWorkspace, hws, hfind]

/-- Witness for `read_file_truncation`: a three-line file read with
`max_lines = 2` yields its first two lines plus the marker naming 3. -/
theorem read_file_truncation_witness :
    (0 : Nat) < 2 ∧
    pyLines (readFileContent "l1\nl2\nl3\n" 2)
      = (pyLines "l1\nl2\nl3\n").take 2 ++ [truncMarker (pyLines "l1\nl2\nl3\n").length] := by
  refine ⟨by decide, ?_⟩
  exact (read_file_truncation "l1\nl2\nl3\n" 2 (by decide)
    (FS.mk [] []) stampX "a.log").1 (by decide)
